import Mathlib

/-!
Verification development for the team-coordinator subsystem of `the-org`:
a shallow embedding of the check-in scheduling and reporting engine
(`recordCheckInAction`, `CheckInService`, `registerTasks`,
`listTeamMembersAction`, plugin task-registration retry) together with
theorems settling the specified properties.
-/

namespace TheOrg

/-- JavaScript `a || b` on an optional string field: `undefined`/missing and
the empty string are falsy and fall back to the default. -/
def jsOr : Option String → String → String
  | none, d => d
  | some s, d => if s = "" then d else s

/-- JavaScript `toLowerCase()`, modelled character-wise over the string's
code points. -/
def jsToLower (s : String) : String := ⟨s.data.map Char.toLower⟩

/-- JavaScript `trim()`: strip whitespace from both ends. -/
def jsTrim (s : String) : String :=
  ⟨((s.data.dropWhile Char.isWhitespace).reverse.dropWhile Char.isWhitespace).reverse⟩

/-! ## Data model (from the source interfaces) -/

/-- `ReportChannelConfig` from `checkInCreate.ts` / `CheckInService.ts`. -/
structure ReportChannelConfig where
  serverId : Option String
  serverName : String
  channelId : String
  source : Option String
  deriving Repr, DecidableEq

/-- `CheckInSchedule` from `checkInCreate.ts` (uuid and timestamps elided:
they are fresh values irrelevant to the stored payload's shape). -/
structure CheckInSchedule where
  checkInType : String
  channelId : String
  frequency : String
  checkInTime : String
  source : String
  serverId : String
  deriving Repr, DecidableEq

/-- A stored memory's `content` field: either a report-channel config, a
check-in schedule, or some other typed content. -/
inductive MemoryContent where
  | reportChannelConfig (config : ReportChannelConfig)
  | checkInScheduleRec (schedule : CheckInSchedule)
  | other (t : String)
  deriving Repr, DecidableEq

/-- `memory.content.type` as read by the handlers. -/
def MemoryContent.contentType : MemoryContent → String
  | .reportChannelConfig _ => "report-channel-config"
  | .checkInScheduleRec _ => "team-member-checkin-schedule"
  | .other t => t

/-- Room id seed for report-channel configs (`createUniqueUuid(runtime,
'report-channel-config')`); rooms are modelled by their seed strings. -/
def reportRoomId : String := "report-channel-config"

/-- Room id seed for check-in schedules (`createUniqueUuid(runtime,
'check-in-schedules')`). -/
def checkInRoomId : String := "check-in-schedules"

/-- The record store visible to `recordCheckInAction`: the set of rooms the
runtime has created, plus the memories of the two rooms the action touches. -/
structure Store where
  rooms : List String
  reportRoom : List MemoryContent
  scheduleRoom : List MemoryContent
  deriving Repr, DecidableEq

def emptyStore : Store := { rooms := [], reportRoom := [], scheduleRoom := [] }

/-- `runtime.ensureRoomExists`: creating an already-existing room is a no-op
("tolerating already exists as success"). -/
def ensureRoomExists (s : Store) (roomId : String) : Store :=
  if roomId ∈ s.rooms then s else { s with rooms := s.rooms ++ [roomId] }

/-- A Discord text channel as collected by the handler (`{id, name, type}`). -/
structure TextChannel where
  id : String
  name : String
  deriving Repr, DecidableEq

/-- `textChannels.find((channel) => channel.name.toLowerCase() ===
checkInConfig.channelForUpdates?.toLowerCase())`: comparing against
`undefined` never matches a string name. -/
def findChannelId (channels : List TextChannel) (channelName : Option String) :
    Option String :=
  match channelName with
  | none => none
  | some n => (channels.find? (fun c => jsToLower c.name = jsToLower n)).map (·.id)

/-- The JSON object the extraction model call is parsed into
(`channelForUpdates`, `checkInType`, `channelForCheckIns`, `frequency`,
`time`); `none` models an absent key. -/
structure ParsedCheckInConfig where
  channelForUpdates : Option String
  checkInType : Option String
  channelForCheckIns : Option String
  frequency : Option String
  time : Option String
  deriving Repr, DecidableEq

/-- Inputs to the `recordCheckInAction` handler after the Discord client and
room lookups succeeded: the server, its text channels, the classification
model's raw answer, the parsed extraction result, and the message/room
source fields. -/
structure RecordCheckInInput where
  serverId : String
  textChannels : List TextChannel
  classifyAnswer : String
  parsed : ParsedCheckInConfig
  messageSource : Option String
  roomSource : Option String
  deriving Repr, DecidableEq

/-- `message.content.source as string || room.source || 'unknown'`. -/
def RecordCheckInInput.source (inp : RecordCheckInInput) : String :=
  jsOr inp.messageSource (jsOr inp.roomSource "unknown")

/-- Outcome of one handler run, as seen by the caller: the reply sent through
the callback together with the handler's boolean return. The source has no
reply path for a validation failure; the `validationError` constructor exists
solely so that the specified behaviour is statable against the model. -/
inductive Outcome where
  | success
  | guidance
  | validationError
  | failed
  deriving Repr, DecidableEq

/-- The handler's boolean return value for each outcome: both the success
reply and the guidance reply end in `return true`. -/
def Outcome.handlerReturn : Outcome → Bool
  | .success => true
  | .guidance => true
  | .validationError => false
  | .failed => false

/-- `checkInConfig.updateChannelId = updateChannel?.id || ''`. -/
def RecordCheckInInput.updateChannelId (inp : RecordCheckInInput) : String :=
  jsOr (findChannelId inp.textChannels inp.parsed.channelForUpdates) ""

/-- `checkInConfig.checkInChannelId = checkInChannel?.id || ''`. -/
def RecordCheckInInput.checkInChannelId (inp : RecordCheckInInput) : String :=
  jsOr (findChannelId inp.textChannels inp.parsed.channelForCheckIns) ""

/-- The `CheckInSchedule` value the handler builds before storing: every
field defaults when absent or empty (`checkInConfig.checkInType || 'STANDUP'`
and so on); nothing is validated. -/
def mkSchedule (inp : RecordCheckInInput) : CheckInSchedule :=
  { checkInType := jsOr inp.parsed.checkInType "STANDUP"
    channelId := jsOr (some inp.checkInChannelId) ""
    frequency := jsOr inp.parsed.frequency "WEEKLY"
    checkInTime := jsOr inp.parsed.time "09:00"
    source := inp.source
    serverId := inp.serverId }

/-- The `ReportChannelConfig` the handler builds when no existing config was
found. -/
def mkReportConfig (inp : RecordCheckInInput) : ReportChannelConfig :=
  { serverId := some inp.serverId
    serverName := "Unknown Server"
    channelId := jsOr (some inp.updateChannelId) ""
    source := some inp.source }

/-- The report-channel-config portion of the handler (the spec's
`createOrUpdateReportChannel`): if no memory of type
`'report-channel-config'` is found in the report room — the scan does not
compare `serverId` — the room is ensured and a fresh config memory is
appended; otherwise nothing is written. -/
def createOrUpdateReportChannel (inp : RecordCheckInInput) (s : Store) : Store :=
  let existingConfig :=
    s.reportRoom.find? (fun memory => memory.contentType = "report-channel-config")
  match existingConfig with
  | some _ => s
  | none =>
    let s' := ensureRoomExists s reportRoomId
    { s' with reportRoom :=
        s'.reportRoom ++ [.reportChannelConfig (mkReportConfig inp)] }

/-- The schedule-storing portion of the handler: ensure the schedules room,
then append the schedule memory. -/
def storeScheduleStep (inp : RecordCheckInInput) (s : Store) : Store :=
  let s' := ensureRoomExists s checkInRoomId
  { s' with scheduleRoom := s'.scheduleRoom ++ [.checkInScheduleRec (mkSchedule inp)] }

/-- The `recordCheckInAction` handler from the point where the message text
and server are in hand: the configuration-details classification gate, then
the report-channel-config creation, then the schedule store, then the
success reply. -/
def recordCheckInHandler (inp : RecordCheckInInput) (s : Store) : Store × Outcome :=
  if jsToLower (jsTrim inp.classifyAnswer) = "false" then
    (s, .guidance)
  else
    let s1 := createOrUpdateReportChannel inp s
    let s2 := storeScheduleStep inp s1
    (s2, .success)

/-! ## CheckInService: check-in submission and the report-channel map -/

/-- The shape of a record-store failure as inspected by the submission
handler (`err.code`, `err.constraint`). -/
structure StoreError where
  code : String
  constraint : String
  deriving Repr, DecidableEq

/-- The user-facing replies `handleCheckInSubmission` can emit. -/
inductive CheckInReply where
  | scheduleCreated
  | noFormData
  | alreadySubmitted
  | failedToSave
  deriving Repr, DecidableEq

/-- `storeCheckInSchedule`: catches, logs and rethrows any failure of the
underlying `createMemory` write. -/
def storeCheckInSchedule (writeResult : Except StoreError Unit) : Except StoreError Unit :=
  match writeResult with
  | .ok u => .ok u
  | .error e => .error e

/-- The body of `handleCheckInSubmission` up to its catch-all: missing form
data replies early; otherwise the schedule is stored and the confirmation
sent. `writeResult` is the outcome of the backing store's write. -/
def handleCheckInSubmissionBody (hasSelections : Bool)
    (writeResult : Except StoreError Unit) : Except StoreError CheckInReply :=
  if hasSelections then
    match storeCheckInSchedule writeResult with
    | .ok _ => .ok .scheduleCreated
    | .error e => .error e
  else .ok .noFormData

/-- `handleCheckInSubmission` as its caller sees it: the catch-all converts
a duplicate-key failure (code `23505` on constraint `memories_pkey`) into
the already-submitted reply and any other failure into the failed-to-save
reply; no exception escapes. -/
def handleCheckInSubmission (hasSelections : Bool)
    (writeResult : Except StoreError Unit) : Except StoreError CheckInReply :=
  match handleCheckInSubmissionBody hasSelections writeResult with
  | .ok r => .ok r
  | .error e =>
    if e.code = "23505" ∧ e.constraint = "memories_pkey" then .ok .alreadySubmitted
    else .ok .failedToSave

/-- The service's in-memory `reportChannelConfigs` map, newest entry first
(a JavaScript `Map.set` replaces the binding, so a lookup sees the most
recent insertion). -/
abbrev ConfigMap := List (String × ReportChannelConfig)

def mapSet (m : ConfigMap) (k : String) (v : ReportChannelConfig) : ConfigMap :=
  (k, v) :: m

def mapGet (m : ConfigMap) (k : String) : Option ReportChannelConfig :=
  (List.find? (fun p => p.1 = k) m).map (·.2)

/-- `storeReportChannelConfig`'s effect on the map: insert only when
`config.serverId` is truthy (defined and non-empty). -/
def storeRCCMap (m : ConfigMap) (config : ReportChannelConfig) : ConfigMap :=
  match config.serverId with
  | some sid => if sid = "" then m else mapSet m sid config
  | none => m

/-- One iteration of `loadReportChannelConfigs`'s loop: a memory of type
`'report-channel-config'` is handed to the same serverId-guarded insertion;
any other memory is skipped. -/
def loadStep (acc : ConfigMap) (memory : MemoryContent) : ConfigMap :=
  match memory with
  | .reportChannelConfig config => storeRCCMap acc config
  | _ => acc

/-- `loadReportChannelConfigs`'s effect: fold the loop over the stored
memories. -/
def loadRCCMap (m : ConfigMap) (memories : List MemoryContent) : ConfigMap :=
  memories.foldl loadStep m

/-- The two operations that ever touch the map over the service's life. -/
inductive SvcOp where
  | store (config : ReportChannelConfig)
  | load (memories : List MemoryContent)

def applySvcOp (m : ConfigMap) : SvcOp → ConfigMap
  | .store config => storeRCCMap m config
  | .load memories => loadRCCMap m memories

/-- Any map reachable from the service's initially empty map. -/
def runSvcOps (ops : List SvcOp) : ConfigMap := ops.foldl applySvcOp []

/-- `getReportChannel(serverId)`: the stored config's `channelId`, or
`undefined` when no entry exists. -/
def getReportChannel (m : ConfigMap) (serverId : String) : Option String :=
  (mapGet m serverId).map (·.channelId)

/-! ## Plugin init: the task-registration retry loop -/

/-- The backoff update `delay = Math.min(delay * 1.2, 5000)`. -/
def nextDelay (d : ℚ) : ℚ := min (d * (12 / 10)) 5000

/-- The delay (milliseconds) waited after failed attempt `n` in
`registerTasksWithRetry(retries = 10, delay = 2000)`. -/
def delayAt : Nat → ℚ
  | 0 => 2000
  | n + 1 => nextDelay (delayAt n)

/-- Outcome of the registration routine: registration succeeded on some
attempt, or the budget ran out and the routine logged and returned. The
type has no throwing alternative because the loop body's catch swallows
every failure and the exhausted path ends in a log line, not a throw. -/
inductive RegResult where
  | registered (attempt : Nat)
  | exhausted
  deriving Repr, DecidableEq

/-- The retry loop. `ready i` models attempt `i` finding
`runtime.getTasks`/`adapter`/`createTask` available and `registerTasks`
succeeding; `false` covers both the not-ready branch and a caught failure.
The delay is threaded exactly as the source updates it. -/
def registerTasksWithRetryAux (ready : Nat → Bool) : Nat → ℚ → Nat → RegResult
  | _, _, 0 => .exhausted
  | i, d, r + 1 =>
    if ready i then .registered i
    else registerTasksWithRetryAux ready (i + 1) (nextDelay d) r

/-- `registerTasksWithRetry()` at its default budget of 10 attempts and
starting delay of 2000 ms. -/
def registerTasksWithRetry (ready : Nat → Bool) : RegResult :=
  registerTasksWithRetryAux ready 0 2000 10

/-! ## registerTasks (tasks.ts) -/

/-- A task descriptor as held by the host task subsystem. -/
structure Task where
  id : Option Nat
  name : String
  tags : List String
  updateInterval : Option Nat
  deriving Repr, DecidableEq

/-- The coordinator's full tag set. -/
def coordinatorTags : List String := ["queue", "repeat", "team_coordinator"]

/-- Whether a task carries every one of the given tags. -/
def hasAllTags (t : Task) (tags : List String) : Bool :=
  tags.all (fun tag => t.tags.contains tag)

/-- `runtime.getTasks({tags})`: the stored tasks carrying all given tags. -/
def getTasks (store : List Task) (tags : List String) : List Task :=
  store.filter (fun t => hasAllTags t tags)

/-- `runtime.deleteTask(id)`. -/
def deleteTask (store : List Task) (tid : Nat) : List Task :=
  store.filter (fun t => t.id ≠ some tid)

/-- One iteration of the clearing loop: `if (task.id) deleteTask(task.id)`. -/
def clearStep (st : List Task) (t : Task) : List Task :=
  match t.id with
  | some tid => deleteTask st tid
  | none => st

/-- The clearing phase of `registerTasks`: fetch the tasks carrying the
coordinator's tag set, then delete each one that has an id. -/
def clearMatching (store : List Task) : List Task :=
  (getTasks store coordinatorTags).foldl clearStep store

/-- The periodic `TEAM_CHECK_IN_SERVICE` task `registerTasks` creates
(1-minute update interval), with the id the host assigns on creation. -/
def teamCheckInTask (freshId : Nat) : Task :=
  { id := some freshId
    name := "TEAM_CHECK_IN_SERVICE"
    tags := coordinatorTags
    updateInterval := some 60000 }

/-- `registerTasks`: clear every stored task carrying the coordinator's tag
set, then create the new periodic task. -/
def registerTasks (store : List Task) (freshId : Nat) : List Task :=
  clearMatching store ++ [teamCheckInTask freshId]

/-! ## listTeamMembersAction -/

/-- JavaScript truthiness of an optional string: `undefined` and `''` are
falsy. -/
def jsTruthy : Option String → Bool
  | none => false
  | some s => !(s == "")

/-- `TeamMember` as read back by `listTeamMembersAction` (`section` is a
Lean keyword, rendered here as `sect`). -/
structure TeamMember where
  sect : String
  tgName : Option String
  discordName : Option String
  updatesFormat : Option (List String)
  deriving Repr, DecidableEq

/-- `member.section || 'Unassigned'`: the grouping key. -/
def sectionKey (m : TeamMember) : String :=
  if m.sect = "" then "Unassigned" else m.sect

/-- One reply line for a member: section, then the Telegram handle if
truthy, else the Discord handle if truthy, then the update fields when
non-empty. -/
def memberLine (m : TeamMember) : String :=
  let withHandle :=
    if jsTruthy m.tgName then
      "Section: " ++ m.sect ++ " | Telegram: " ++ m.tgName.getD ""
    else if jsTruthy m.discordName then
      "Section: " ++ m.sect ++ " | Discord: " ++ m.discordName.getD ""
    else
      "Section: " ++ m.sect
  match m.updatesFormat with
  | some fields =>
    if fields.length > 0 then
      withHandle ++ " | Update Fields: " ++ String.intercalate ", " fields
    else withHandle
  | none => withHandle

/-- One iteration of the handler's grouping loop over `sectionMap`: append
the member to its section's list, or add a new section at the end (a
JavaScript `Map` keeps keys in insertion order). -/
def insertMember (acc : List (String × List TeamMember)) (m : TeamMember) :
    List (String × List TeamMember) :=
  if acc.any (fun p => p.1 = sectionKey m) then
    acc.map (fun p => if p.1 = sectionKey m then (p.1, p.2 ++ [m]) else p)
  else
    acc ++ [(sectionKey m, [m])]

/-- The handler's `sectionMap` after the grouping loop. -/
def buildSectionMap (ms : List TeamMember) : List (String × List TeamMember) :=
  ms.foldl insertMember []

/-- The lines the handler actually puts in the reply: a flat `map` over the
member list in stored order (`teamMembers.map(member => ...)`). -/
def formattedMembers (ms : List TeamMember) : List String :=
  ms.map memberLine

/-- The output order the claim describes (spec-side definition for the
comparison): the grouped map flattened section by section. -/
def groupedLines (ms : List TeamMember) : List String :=
  ((buildSectionMap ms).map (fun p => p.2.map memberLine)).flatten

/-- One step of first-seen key collection. -/
def firstSeenStep (acc : List String) (m : TeamMember) : List String :=
  if sectionKey m ∈ acc then acc else acc ++ [sectionKey m]

/-- The section keys in first-seen order. -/
def firstSeenKeys (ms : List TeamMember) : List String :=
  ms.foldl firstSeenStep []

/-- The grouping the claim describes, written directly: sections in
first-seen order, each holding its members in insertion order. -/
def groupSpec (ms : List TeamMember) : List (String × List TeamMember) :=
  (firstSeenKeys ms).map (fun s => (s, ms.filter (fun x => sectionKey x = s)))

/-! ## Due-Schedule Evaluator -/

/-- The valid schedule frequencies. -/
inductive Frequency where
  | DAILY
  | WEEKDAYS
  | WEEKLY
  | BI_WEEKLY
  | MONTHLY
  deriving Repr, DecidableEq

/-- Modelled from the spec: the Due-Schedule Evaluator's scheduled instants
(the `TeamUpdateTrackerService.checkInServiceJob` implementing the Job
Runner tick is referenced by `tasks.ts` but its source is not in the
repository snapshot). Time is whole minutes (UTC) since an epoch whose day
0 is a Monday; `checkInTime` is the minute-of-day of the schedule's
`HH:MM`; `anchorDay` is `createdAt`'s day, anchoring the weekly, bi-weekly
and (30-day) monthly cycles. An instant is scheduled when its minute-of-day
is `checkInTime` and its day satisfies the frequency's day predicate. -/
def isScheduledInstant (f : Frequency) (checkInTime anchorDay : Nat) (i : Nat) : Bool :=
  (i % 1440 == checkInTime) &&
    (match f with
     | .DAILY => true
     | .WEEKDAYS => i / 1440 % 7 < 5
     | .WEEKLY => i / 1440 % 7 == anchorDay % 7
     | .BI_WEEKLY => i / 1440 % 14 == anchorDay % 14
     | .MONTHLY => i / 1440 % 30 == anchorDay % 30)

/-- The greatest `i ≤ n` satisfying `P`, if any. -/
def mostRecentSat (P : Nat → Bool) : Nat → Option Nat
  | 0 => if P 0 then some 0 else none
  | n + 1 => if P (n + 1) then some (n + 1) else mostRecentSat P n

/-- Modelled from the spec: the most recent scheduled instant at or before
`now`. -/
def mostRecentInstant (now : Nat) (f : Frequency) (checkInTime anchorDay : Nat) :
    Option Nat :=
  mostRecentSat (isScheduledInstant f checkInTime anchorDay) now

/-- Modelled from the spec: the due decision — due iff the most recent
scheduled instant falls strictly within the last polling interval and the
last-dispatched-instant marker does not already record it. -/
def isDue (now interval : Nat) (f : Frequency) (checkInTime anchorDay : Nat)
    (lastDispatched : Option Nat) : Bool :=
  match mostRecentInstant now f checkInTime anchorDay with
  | none => false
  | some i => (now - i < interval) && !(lastDispatched == some i)

/-- Modelled from the spec: dispatching records the dispatched instant in
the marker. -/
def markDispatched (now : Nat) (f : Frequency) (checkInTime anchorDay : Nat) :
    Option Nat :=
  mostRecentInstant now f checkInTime anchorDay

/-! ### Concrete inputs used by counterexamples and witnesses -/

/-- A submission carrying an out-of-enum frequency (`HOURLY`), a malformed
time (`9am`) and no resolvable check-in channel (so `channelId` ends up
empty). -/
def invalidInput : RecordCheckInInput :=
  { serverId := "srv1"
    textChannels := []
    classifyAnswer := "true"
    parsed :=
      { channelForUpdates := none
        checkInType := some "STANDUP"
        channelForCheckIns := none
        frequency := some "HOURLY"
        time := some "9am" }
    messageSource := some "discord"
    roomSource := none }

/-- A report-channel config that was stored for a different server. -/
def otherServerConfig : ReportChannelConfig :=
  { serverId := some "srv-other"
    serverName := "Other Server"
    channelId := "chan-1"
    source := some "discord" }

/-- A store that already holds one report-channel config record. -/
def storeWithConfig : Store :=
  { rooms := [reportRoomId, checkInRoomId]
    reportRoom := [.reportChannelConfig otherServerConfig]
    scheduleRoom := [] }

/-- A well-formed submission for server `srv2`. -/
def sampleInput : RecordCheckInInput :=
  { serverId := "srv2"
    textChannels := [{ id := "111", name := "general" }, { id := "222", name := "standup" }]
    classifyAnswer := "true"
    parsed :=
      { channelForUpdates := some "General"
        checkInType := some "STANDUP"
        channelForCheckIns := some "standup"
        frequency := some "DAILY"
        time := some "09:00" }
    messageSource := some "discord"
    roomSource := none }

/-- A question rather than a submission: the classifier answers negatively
(with surrounding noise that `trim`/`toLowerCase` normalise away). -/
def negativeInput : RecordCheckInInput :=
  { sampleInput with classifyAnswer := " FALSE " }

/-- The failure Postgres raises when the memories primary key collides. -/
def duplicateKeyError : StoreError := { code := "23505", constraint := "memories_pkey" }

/-- A config for server `srv9` as submitted through the report-channel form. -/
def srv9Config : ReportChannelConfig :=
  { serverId := some "srv9"
    serverName := "Nine"
    channelId := "chan9"
    source := none }

/-- One store operation on the service's map. -/
def svcOpsExample : List SvcOp := [.store srv9Config]

/-- Three members whose sections interleave: A, B, then A again. -/
def exMembers : List TeamMember :=
  [ { sect := "A", tgName := none, discordName := some "u1", updatesFormat := none },
    { sect := "B", tgName := none, discordName := some "u2", updatesFormat := none },
    { sect := "A", tgName := none, discordName := some "u3", updatesFormat := none } ]

/-- A task store left over from before a restart: two stale coordinator
tasks plus an unrelated task. -/
def staleTaskStore : List Task :=
  [ { id := some 1, name := "TEAM_CHECK_IN_SERVICE", tags := coordinatorTags,
      updateInterval := some 60000 },
    { id := some 2, name := "TEAM_CHECK_IN_SERVICE", tags := coordinatorTags,
      updateInterval := some 60000 },
    { id := some 3, name := "OTHER", tags := ["queue"], updateInterval := none } ]

end TheOrg

namespace TheOrg

/-! ## Helper lemmas -/

theorem ensureRoomExists_reportRoom (s : Store) (r : String) :
    (ensureRoomExists s r).reportRoom = s.reportRoom := by
  unfold ensureRoomExists; split <;> rfl

theorem ensureRoomExists_scheduleRoom (s : Store) (r : String) :
    (ensureRoomExists s r).scheduleRoom = s.scheduleRoom := by
  unfold ensureRoomExists; split <;> rfl

/-- The config-creation step never touches the schedules room. -/
theorem createOrUpdateReportChannel_scheduleRoom (inp : RecordCheckInInput) (s : Store) :
    (createOrUpdateReportChannel inp s).scheduleRoom = s.scheduleRoom := by
  unfold createOrUpdateReportChannel
  cases s.reportRoom.find? (fun memory => memory.contentType = "report-channel-config") with
  | none => simp [ensureRoomExists_scheduleRoom]
  | some m => rfl

/-- When some memory of type `'report-channel-config'` is present, the
config-creation step is a no-op on the whole store. -/
theorem createOrUpdateReportChannel_of_exists (inp : RecordCheckInInput) (s : Store)
    (h : ∃ m ∈ s.reportRoom, m.contentType = "report-channel-config") :
    createOrUpdateReportChannel inp s = s := by
  unfold createOrUpdateReportChannel
  cases hf : s.reportRoom.find? (fun memory => memory.contentType = "report-channel-config") with
  | none =>
    rw [List.find?_eq_none] at hf
    obtain ⟨m, hm, ht⟩ := h
    have := hf m hm
    simp [ht] at this
  | some m => rfl

/-- The schedule step appends exactly the built schedule record. -/
theorem storeScheduleStep_scheduleRoom (inp : RecordCheckInInput) (s : Store) :
    (storeScheduleStep inp s).scheduleRoom =
      s.scheduleRoom ++ [.checkInScheduleRec (mkSchedule inp)] := by
  unfold storeScheduleStep
  simp [ensureRoomExists_scheduleRoom]

theorem storeScheduleStep_reportRoom (inp : RecordCheckInInput) (s : Store) :
    (storeScheduleStep inp s).reportRoom = s.reportRoom := by
  unfold storeScheduleStep
  simp [ensureRoomExists_reportRoom]

/-- The schedule step can only ever add the schedules room, so the number of
`report-channel-config` rooms is untouched. -/
theorem storeScheduleStep_reportRoom_count (inp : RecordCheckInInput) (s : Store) :
    (storeScheduleStep inp s).rooms.count reportRoomId = s.rooms.count reportRoomId := by
  unfold storeScheduleStep ensureRoomExists
  split
  · rfl
  · simp only [List.count_append]
    have : List.count reportRoomId [checkInRoomId] = 0 := by decide
    omega

/-- Shared helper: with any config record present, a handler run preserves
the report room and the config-room count. -/
theorem handler_preserves_reportRoom_of_exists (inp : RecordCheckInInput) (s : Store)
    (h : ∃ m ∈ s.reportRoom, m.contentType = "report-channel-config") :
    (recordCheckInHandler inp s).1.reportRoom = s.reportRoom ∧
    (recordCheckInHandler inp s).1.rooms.count reportRoomId = s.rooms.count reportRoomId := by
  unfold recordCheckInHandler
  split
  · exact ⟨rfl, rfl⟩
  · simp only
    rw [createOrUpdateReportChannel_of_exists inp s h]
    exact ⟨storeScheduleStep_reportRoom inp s, storeScheduleStep_reportRoom_count inp s⟩

/-! ## Claim theorems -/

/-- C1 counterexample: a submission with frequency `HOURLY` (not in the
frequency enum), check-in time `9am` (not `HH:MM`) and an empty channel id
does not fail with a validation error: the handler reports success and a
`CheckInSchedule` record carrying exactly those invalid values is
persisted. -/
theorem recordCheckIn_no_validation_cex :
    (recordCheckInHandler invalidInput emptyStore).2 ≠ Outcome.validationError ∧
    (recordCheckInHandler invalidInput emptyStore).2 = Outcome.success ∧
    (recordCheckInHandler invalidInput emptyStore).1.scheduleRoom =
      [MemoryContent.checkInScheduleRec
        { checkInType := "STANDUP", channelId := "", frequency := "HOURLY",
          checkInTime := "9am", source := "discord", serverId := "srv1" }] := by
  decide

/-- C1 (amended): `recordCheckInAction` performs no validation of
`frequency`, `checkInTime` or `channelId`: whenever the classification gate
answers anything but `false`, the handler persists one `CheckInSchedule`
record built from the parsed values (defaulting absent fields to `STANDUP` /
`WEEKLY` / `09:00` / the empty channel id) and reports success; no
`ValidationError` outcome exists in the code. -/
theorem recordCheckIn_persists_without_validation (inp : RecordCheckInInput) (s : Store)
    (h : ¬ jsToLower (jsTrim inp.classifyAnswer) = "false") :
    (recordCheckInHandler inp s).2 = Outcome.success ∧
    (recordCheckInHandler inp s).1.scheduleRoom =
      s.scheduleRoom ++ [MemoryContent.checkInScheduleRec (mkSchedule inp)] := by
  unfold recordCheckInHandler
  rw [if_neg h]
  refine ⟨rfl, ?_⟩
  rw [storeScheduleStep_scheduleRoom, createOrUpdateReportChannel_scheduleRoom]

/-- C1 witness: the amended theorem applied to the invalid concrete
submission. -/
theorem recordCheckIn_persists_without_validation_witness :
    (recordCheckInHandler invalidInput emptyStore).2 = Outcome.success ∧
    (recordCheckInHandler invalidInput emptyStore).1.scheduleRoom =
      emptyStore.scheduleRoom ++ [MemoryContent.checkInScheduleRec (mkSchedule invalidInput)] :=
  recordCheckIn_persists_without_validation invalidInput emptyStore (by decide)

/-- C2: when a record of type `'report-channel-config'` is already stored,
re-running the handler writes no second config record (the report room's
contents are unchanged, so the first config survives verbatim) and creates
no second backing room for the configs. -/
theorem createOrUpdateReportChannel_idempotent (inp : RecordCheckInInput) (s : Store)
    (h : ∃ m ∈ s.reportRoom, m.contentType = "report-channel-config") :
    (recordCheckInHandler inp s).1.reportRoom = s.reportRoom ∧
    (recordCheckInHandler inp s).1.rooms.count reportRoomId = s.rooms.count reportRoomId :=
  handler_preserves_reportRoom_of_exists inp s h

/-- C2 witness: with one config already stored, a second run leaves the
report room and the room list's config-room count unchanged. -/
theorem createOrUpdateReportChannel_idempotent_witness :
    (recordCheckInHandler sampleInput storeWithConfig).1.reportRoom = storeWithConfig.reportRoom ∧
    (recordCheckInHandler sampleInput storeWithConfig).1.rooms.count reportRoomId =
      storeWithConfig.rooms.count reportRoomId :=
  createOrUpdateReportChannel_idempotent sampleInput storeWithConfig (by decide)

/-- C8: when the classification call judges the text negative (the reply
normalises to `false`), the handler stores nothing at all, replies with the
guidance message, and returns `true` (success, not an error). -/
theorem collector_negative_stores_nothing (inp : RecordCheckInInput) (s : Store)
    (h : jsToLower (jsTrim inp.classifyAnswer) = "false") :
    recordCheckInHandler inp s = (s, Outcome.guidance) ∧
    Outcome.handlerReturn (recordCheckInHandler inp s).2 = true := by
  have e : recordCheckInHandler inp s = (s, Outcome.guidance) := by
    unfold recordCheckInHandler
    rw [if_pos h]
  exact ⟨e, by rw [e]; rfl⟩

/-- C8 witness: the guidance path on the concrete negative classification. -/
theorem collector_negative_stores_nothing_witness :
    recordCheckInHandler negativeInput storeWithConfig = (storeWithConfig, Outcome.guidance) ∧
    Outcome.handlerReturn (recordCheckInHandler negativeInput storeWithConfig).2 = true :=
  collector_negative_stores_nothing negativeInput storeWithConfig (by decide)

/-- C9: the existing-config scan matches on `content.type` only, never on
`serverId`; a config stored for a different server therefore makes the
handler skip creating any config for the current server (the report room is
left exactly as it was). -/
theorem existingConfig_ignores_serverId (inp : RecordCheckInInput) (s : Store)
    (cfg : ReportChannelConfig)
    (hmem : MemoryContent.reportChannelConfig cfg ∈ s.reportRoom)
    (hother : cfg.serverId ≠ some inp.serverId) :
    (recordCheckInHandler inp s).1.reportRoom = s.reportRoom :=
  (handler_preserves_reportRoom_of_exists inp s
    ⟨MemoryContent.reportChannelConfig cfg, hmem, rfl⟩).1

/-- C9 witness: a config for `srv-other` blocks config creation for `srv2`. -/
theorem existingConfig_ignores_serverId_witness :
    (recordCheckInHandler sampleInput storeWithConfig).1.reportRoom =
      storeWithConfig.reportRoom :=
  existingConfig_ignores_serverId sampleInput storeWithConfig otherServerConfig
    (by decide) (by decide)

/-- C3: a duplicate-key failure (code `23505` on constraint `memories_pkey`)
raised by the store write is caught and turned into the already-submitted
reply, and the submission handler never lets any exception escape to its
caller. -/
theorem duplicate_key_caught (e : StoreError)
    (hc : e.code = "23505") (hk : e.constraint = "memories_pkey") :
    handleCheckInSubmission true (Except.error e) = Except.ok CheckInReply.alreadySubmitted ∧
    ∀ (hasSelections : Bool) (w : Except StoreError Unit),
      (handleCheckInSubmission hasSelections w).isOk = true := by
  constructor
  · unfold handleCheckInSubmission handleCheckInSubmissionBody storeCheckInSchedule
    simp [hc, hk]
  · intro hs w
    cases hs <;> cases w <;>
      simp only [handleCheckInSubmission, handleCheckInSubmissionBody,
        storeCheckInSchedule] <;>
      first
        | rfl
        | (split <;> first | rfl | (split <;> rfl))

/-- C3 witness: the concrete Postgres duplicate-key error yields the
already-submitted reply. -/
theorem duplicate_key_caught_witness :
    handleCheckInSubmission true (Except.error duplicateKeyError) =
      Except.ok CheckInReply.alreadySubmitted :=
  (duplicate_key_caught duplicateKeyError (by decide) (by decide)).1

/-- The map invariant behind C10: every entry is keyed by its own config's
defined serverId. -/
def ConfigMapInv (m : ConfigMap) : Prop :=
  ∀ p ∈ m, (p.2).serverId = some p.1

theorem storeRCCMap_inv {m : ConfigMap} (config : ReportChannelConfig)
    (h : ConfigMapInv m) : ConfigMapInv (storeRCCMap m config) := by
  intro p hp
  cases hc : config.serverId with
  | none =>
    simp only [storeRCCMap, hc] at hp
    exact h p hp
  | some sid =>
    simp only [storeRCCMap, hc] at hp
    by_cases hs : sid = ""
    · rw [if_pos hs] at hp; exact h p hp
    · rw [if_neg hs] at hp
      unfold mapSet at hp
      rcases List.mem_cons.mp hp with rfl | hp'
      · exact hc
      · exact h p hp'

theorem loadStep_inv {m : ConfigMap} (memory : MemoryContent)
    (h : ConfigMapInv m) : ConfigMapInv (loadStep m memory) := by
  cases memory with
  | reportChannelConfig config => exact storeRCCMap_inv config h
  | checkInScheduleRec s => exact h
  | other t => exact h

theorem loadRCCMap_inv (memories : List MemoryContent) :
    ∀ (m : ConfigMap), ConfigMapInv m → ConfigMapInv (loadRCCMap m memories) := by
  induction memories with
  | nil => intro m h; exact h
  | cons memory rest ih =>
    intro m h
    unfold loadRCCMap
    rw [List.foldl_cons]
    exact ih (loadStep m memory) (loadStep_inv memory h)

theorem applySvcOp_inv {m : ConfigMap} (op : SvcOp)
    (h : ConfigMapInv m) : ConfigMapInv (applySvcOp m op) := by
  cases op with
  | store config => exact storeRCCMap_inv config h
  | load memories => exact loadRCCMap_inv memories m h

theorem runSvcOps_inv (ops : List SvcOp) : ConfigMapInv (runSvcOps ops) := by
  unfold runSvcOps
  have : ∀ (l : List SvcOp) (m : ConfigMap), ConfigMapInv m →
      ConfigMapInv (l.foldl applySvcOp m) := by
    intro l
    induction l with
    | nil => intro m h; exact h
    | cons op rest ih =>
      intro m h
      rw [List.foldl_cons]
      exact ih (applySvcOp m op) (applySvcOp_inv op h)
  exact this ops [] (by intro p hp; cases hp)

/-- C10: over any sequence of store/load operations starting from the
service's empty map, every map entry is keyed by its config's own defined
`serverId`; `getReportChannel` returns the stored config's `channelId`
exactly when an entry for that server exists (and that config's `serverId`
is the queried server, so a config persisted without a `serverId` is never
returned); with no entry it returns `undefined`. -/
theorem reportChannelConfigs_keyed_by_serverId (ops : List SvcOp) (sid : String) :
    (∀ p ∈ runSvcOps ops, (p.2).serverId = some p.1) ∧
    (∀ ch, getReportChannel (runSvcOps ops) sid = some ch →
      ∃ config, mapGet (runSvcOps ops) sid = some config ∧
        config.channelId = ch ∧ config.serverId = some sid) ∧
    (mapGet (runSvcOps ops) sid = none → getReportChannel (runSvcOps ops) sid = none) := by
  have hinv : ConfigMapInv (runSvcOps ops) := runSvcOps_inv ops
  refine ⟨hinv, ?_, ?_⟩
  · intro ch hch
    unfold getReportChannel at hch
    cases hg : mapGet (runSvcOps ops) sid with
    | none => rw [hg] at hch; simp at hch
    | some config =>
      rw [hg] at hch
      simp only [Option.map_some'] at hch
      refine ⟨config, rfl, by simpa using hch, ?_⟩
      unfold mapGet at hg
      cases hf : List.find? (fun p => p.1 = sid) (runSvcOps ops) with
      | none => rw [hf] at hg; simp at hg
      | some p =>
        rw [hf] at hg
        simp only [Option.map_some', Option.some.injEq] at hg
        have hk : p.1 = sid := by simpa using List.find?_some hf
        have hmem : p ∈ runSvcOps ops := List.mem_of_find?_eq_some hf
        have hps := hinv p hmem
        rw [hg, hk] at hps
        exact hps
  · intro hnone
    unfold getReportChannel
    rw [hnone]
    rfl

/-- C10 witness: after storing `srv9Config`, the lookup for `srv9` returns
that config, whose `serverId` is defined and equals the key. -/
theorem reportChannelConfigs_keyed_by_serverId_witness :
    ∃ config, mapGet (runSvcOps svcOpsExample) "srv9" = some config ∧
      config.channelId = "chan9" ∧ config.serverId = some "srv9" :=
  (reportChannelConfigs_keyed_by_serverId svcOpsExample "srv9").2.1 "chan9" (by decide)

/-- C5 counterexample: the retry delay does not double. After the first
failed attempt the loop waits `min(2000 * 1.2, 5000) = 2400` ms, not the
`min(2 * 2000, 5000) = 4000` ms a doubling schedule would give. -/
theorem retry_backoff_not_doubling_cex :
    delayAt 1 ≠ min (2 * delayAt 0) 5000 ∧ delayAt 1 = 2400 := by
  constructor
  · intro h
    rw [show delayAt 1 = 2400 by norm_num [delayAt, nextDelay, min_def],
      show min (2 * delayAt 0) 5000 = (4000 : ℚ) by
        norm_num [delayAt, min_def]] at h
    norm_num at h
  · norm_num [delayAt, nextDelay, min_def]

/-- Shared helper for C5: the loop performs at most `r` attempts and always
returns a normal result. -/
theorem registerTasksWithRetryAux_spec (ready : Nat → Bool) :
    ∀ (r i : Nat) (d : ℚ),
      (∃ j, j < i + r ∧ registerTasksWithRetryAux ready i d r = .registered j) ∨
      registerTasksWithRetryAux ready i d r = .exhausted := by
  intro r
  induction r with
  | zero => intro i d; right; rfl
  | succ r ih =>
    intro i d
    by_cases h : ready i = true
    · left
      exact ⟨i, by omega, by simp [registerTasksWithRetryAux, h]⟩
    · rcases ih (i + 1) (nextDelay d) with ⟨j, hj, he⟩ | he
      · left
        refine ⟨j, by omega, ?_⟩
        simp only [registerTasksWithRetryAux, h, if_false]
        exact he
      · right
        simp only [registerTasksWithRetryAux, h, if_false]
        exact he

/-- C5 (amended): the registration retry loop has a fixed budget of 10
attempts whose delay is multiplied by 1.2 (from 2000 ms) and capped at
5000 ms — not doubled — and exhausting the budget is non-fatal: the routine
ends in a normal `exhausted` return (log-and-continue), never a throw. -/
theorem registerTasksWithRetry_bounded_nonfatal (ready : Nat → Bool) :
    (∀ n, delayAt (n + 1) = min (delayAt n * (12 / 10)) 5000) ∧
    ((∃ i, i < 10 ∧ registerTasksWithRetry ready = .registered i) ∨
      registerTasksWithRetry ready = .exhausted) := by
  constructor
  · intro n; rfl
  · simpa using registerTasksWithRetryAux_spec ready 10 0 2000

/-- Shared helper for C6: anything surviving the delete-fold was in the
initial store and carries none of the deleted ids. -/
theorem mem_clearFold (l : List Task) :
    ∀ (st : List Task) (t : Task), t ∈ l.foldl clearStep st →
      t ∈ st ∧ ∀ x ∈ l, ∀ tid, x.id = some tid → t.id ≠ some tid := by
  induction l with
  | nil =>
    intro st t ht
    exact ⟨ht, by intro x hx; cases hx⟩
  | cons x rest ih =>
    intro st t ht
    rw [List.foldl_cons] at ht
    obtain ⟨ht', hrest⟩ := ih (clearStep st x) t ht
    have hsub : t ∈ st ∧ ∀ tid, x.id = some tid → t.id ≠ some tid := by
      cases hx : x.id with
      | none =>
        simp only [clearStep, hx] at ht'
        refine ⟨ht', ?_⟩
        intro tid hcontra
        exact Option.noConfusion hcontra
      | some tid =>
        simp only [clearStep, hx, deleteTask] at ht'
        have hmem := List.mem_of_mem_filter ht'
        have hprop := List.of_mem_filter ht'
        refine ⟨hmem, ?_⟩
        intro tid' hcontra
        cases Option.some.inj hcontra
        simpa using hprop
    refine ⟨hsub.1, ?_⟩
    intro y hy tid h
    rcases List.mem_cons.mp hy with rfl | hy'
    · exact hsub.2 tid h
    · exact hrest y hy' tid h

/-- C6: when every stored task has an id (they are host-assigned), the
clearing phase removes every task carrying the coordinator's full tag set,
so after `registerTasks` at most one task with that tag set exists — the
freshly created periodic task. -/
theorem registerTasks_single_periodic (store : List Task) (freshId : Nat)
    (h : ∀ t ∈ store, (t.id).isSome = true) :
    (∀ t ∈ store, hasAllTags t coordinatorTags = true → t ∉ clearMatching store) ∧
    (getTasks (registerTasks store freshId) coordinatorTags).length ≤ 1 := by
  have hclear : ∀ t ∈ clearMatching store,
      hasAllTags t coordinatorTags = true → False := by
    intro t ht hmatch
    obtain ⟨hst, hdel⟩ := mem_clearFold (getTasks store coordinatorTags) store t ht
    have hmem : t ∈ getTasks store coordinatorTags := by
      unfold getTasks
      exact List.mem_filter.mpr ⟨hst, by simpa using hmatch⟩
    cases hid : t.id with
    | none => have := h t hst; rw [hid] at this; cases this
    | some tid => exact hdel t hmem tid hid hid
  constructor
  · intro t hts hmatch ht
    exact hclear t ht hmatch
  · unfold registerTasks getTasks
    rw [List.filter_append]
    have h1 : (clearMatching store).filter (fun t => hasAllTags t coordinatorTags) = [] := by
      rw [List.filter_eq_nil_iff]
      intro t ht hmatch
      exact hclear t ht (by simpa using hmatch)
    rw [h1]
    have h2 : List.filter (fun t => hasAllTags t coordinatorTags)
        [teamCheckInTask freshId] = [teamCheckInTask freshId] := rfl
    rw [h2]
    simp

/-- `any` over a mapped list (general version; the library's `any_map` here
only covers endomaps). -/
theorem any_of_map {α β : Type} (l : List α) (f : α → β) (p : β → Bool) :
    (l.map f).any p = l.any (fun a => p (f a)) := by
  induction l with
  | nil => rfl
  | cons a l ih => simp [List.any_cons, ih]

/-- Membership after one first-seen step. -/
theorem mem_firstSeenStep (acc : List String) (m : TeamMember) (s : String) :
    s ∈ firstSeenStep acc m ↔ s ∈ acc ∨ sectionKey m = s := by
  unfold firstSeenStep
  split
  case isTrue hk =>
    constructor
    · exact Or.inl
    · rintro (h | rfl)
      · exact h
      · exact hk
  case isFalse hk =>
    rw [List.mem_append, List.mem_singleton]
    exact or_congr Iff.rfl eq_comm

theorem mem_firstSeen_foldl (ms : List TeamMember) :
    ∀ (acc : List String) (s : String),
      s ∈ ms.foldl firstSeenStep acc ↔ s ∈ acc ∨ ∃ x ∈ ms, sectionKey x = s := by
  induction ms with
  | nil => intro acc s; simp
  | cons m rest ih =>
    intro acc s
    rw [List.foldl_cons, ih (firstSeenStep acc m) s, mem_firstSeenStep]
    constructor
    · rintro ((h | h) | ⟨x, hx, hks⟩)
      · exact Or.inl h
      · exact Or.inr ⟨m, List.mem_cons_self m rest, h⟩
      · exact Or.inr ⟨x, List.mem_cons_of_mem m hx, hks⟩
    · rintro (h | ⟨x, hx, hks⟩)
      · exact Or.inl (Or.inl h)
      · rcases List.mem_cons.mp hx with rfl | hx'
        · exact Or.inl (Or.inr hks)
        · exact Or.inr ⟨x, hx', hks⟩

theorem mem_firstSeenKeys (ms : List TeamMember) (s : String) :
    s ∈ firstSeenKeys ms ↔ ∃ x ∈ ms, sectionKey x = s := by
  unfold firstSeenKeys
  rw [mem_firstSeen_foldl]
  simp

theorem buildSectionMap_snoc (ms : List TeamMember) (m : TeamMember) :
    buildSectionMap (ms ++ [m]) = insertMember (buildSectionMap ms) m := by
  unfold buildSectionMap
  rw [List.foldl_append]
  rfl

theorem firstSeenKeys_snoc (ms : List TeamMember) (m : TeamMember) :
    firstSeenKeys (ms ++ [m]) = firstSeenStep (firstSeenKeys ms) m := by
  unfold firstSeenKeys
  rw [List.foldl_append]
  rfl

theorem filter_key_snoc (ms : List TeamMember) (m : TeamMember) (s : String) :
    (ms ++ [m]).filter (fun x => sectionKey x = s) =
      ms.filter (fun x => sectionKey x = s) ++
        (if sectionKey m = s then [m] else []) := by
  rw [List.filter_append]
  congr 1
  by_cases h : sectionKey m = s
  · simp [h]
  · simp [h]

/-- The handler's section map is exactly the first-seen-ordered grouping
with insertion order inside each section. -/
theorem buildSectionMap_eq_groupSpec (ms : List TeamMember) :
    buildSectionMap ms = groupSpec ms := by
  induction ms using List.reverseRecOn with
  | nil => rfl
  | append_singleton ms m ih =>
    rw [buildSectionMap_snoc, ih]
    by_cases hk : sectionKey m ∈ firstSeenKeys ms
    · have hany : (groupSpec ms).any (fun p => p.1 = sectionKey m) = true := by
        unfold groupSpec
        rw [any_of_map, List.any_eq_true]
        exact ⟨sectionKey m, hk, by simp⟩
      unfold insertMember
      rw [if_pos hany]
      unfold groupSpec
      rw [firstSeenKeys_snoc]
      unfold firstSeenStep
      rw [if_pos hk, List.map_map]
      apply List.map_congr_left
      intro s _hs
      simp only [Function.comp_apply]
      by_cases hsk : s = sectionKey m
      · rw [if_pos hsk, filter_key_snoc, if_pos hsk.symm]
      · rw [if_neg hsk, filter_key_snoc,
          if_neg (fun he => hsk he.symm), List.append_nil]
    · have hany : ¬ ((groupSpec ms).any (fun p => p.1 = sectionKey m) = true) := by
        unfold groupSpec
        rw [any_of_map, List.any_eq_true]
        rintro ⟨s, hs, hps⟩
        simp only [Function.comp_apply] at hps
        have hsemk : s = sectionKey m := by simpa using hps
        exact hk (hsemk ▸ hs)
      unfold insertMember
      rw [if_neg hany]
      unfold groupSpec
      rw [firstSeenKeys_snoc]
      unfold firstSeenStep
      rw [if_neg hk, List.map_append]
      congr 1
      · apply List.map_congr_left
        intro s hs
        rw [filter_key_snoc]
        have hsk : sectionKey m ≠ s := fun he => hk (he ▸ hs)
        rw [if_neg hsk, List.append_nil]
      · rw [List.map_singleton]
        have hnil : ms.filter (fun x => sectionKey x = sectionKey m) = [] := by
          rw [List.filter_eq_nil_iff]
          intro x hx hpx
          exact hk ((mem_firstSeenKeys ms (sectionKey m)).mpr ⟨x, hx, by simpa using hpx⟩)
        rw [filter_key_snoc, if_pos rfl, hnil, List.nil_append]

/-- C7 counterexample: for members in sections A, B, A the reply lines come
out in flat insertion order (A, B, A), not grouped by section (A, A, B):
the grouped map is computed but never shapes the output. -/
theorem listTeamMembers_not_grouped_cex :
    formattedMembers exMembers ≠ groupedLines exMembers := by
  decide

/-- C7 (amended): the handler's reply lists all members flat in insertion
order, while the section map it computes (but does not use for the output)
does group members by section with sections in first-seen order and,
within each section, members in insertion order. -/
theorem listTeamMembers_flat_output_grouped_map (ms : List TeamMember) :
    formattedMembers ms = ms.map memberLine ∧
    buildSectionMap ms = groupSpec ms :=
  ⟨rfl, buildSectionMap_eq_groupSpec ms⟩

/-- C4: the due decision is a pure function of exactly `now`, the frequency,
the check-in time (with its anchor) and the last-dispatched marker — equal
values of those inputs give equal decisions — and once a due evaluation
dispatches and the marker records the instant, any evaluation whose most
recent scheduled instant is that same instant reports not-due: the same
scheduled instant is never reported due twice. -/
theorem evaluator_deterministic_no_retrigger
    (now interval : Nat) (f : Frequency) (checkInTime anchorDay : Nat)
    (lastDispatched : Option Nat)
    (h : isDue now interval f checkInTime anchorDay lastDispatched = true) :
    (∀ now2 f2 t2 a2 m2, now2 = now → f2 = f → t2 = checkInTime →
      a2 = anchorDay → m2 = lastDispatched →
      isDue now2 interval f2 t2 a2 m2 =
        isDue now interval f checkInTime anchorDay lastDispatched) ∧
    (∀ now2, mostRecentInstant now2 f checkInTime anchorDay =
        markDispatched now f checkInTime anchorDay →
      isDue now2 interval f checkInTime anchorDay
        (markDispatched now f checkInTime anchorDay) = false) := by
  constructor
  · intro now2 f2 t2 a2 m2 h1 h2 h3 h4 h5
    subst h1; subst h2; subst h3; subst h4; subst h5
    rfl
  · intro now2 hsame
    unfold isDue at h ⊢
    unfold markDispatched at hsame ⊢
    cases hm : mostRecentInstant now f checkInTime anchorDay with
    | none => rw [hm] at h; cases h
    | some i =>
      rw [hm] at hsame
      rw [hsame]
      simp

/-- C4 witness: a daily 09:00 schedule evaluated at 09:00 with a 60-minute
polling interval is due; after dispatch records instant 540, re-evaluating
at the same instant is not due. -/
theorem evaluator_deterministic_no_retrigger_witness :
    isDue 540 60 Frequency.DAILY 540 0
      (markDispatched 540 Frequency.DAILY 540 0) = false :=
  (evaluator_deterministic_no_retrigger 540 60 Frequency.DAILY 540 0 none
    (by decide)).2 540 rfl

/-- C6 witness: a store with two stale coordinator tasks and one unrelated
task; after re-registration the stale tasks are gone and exactly one
coordinator-tagged task remains. -/
theorem registerTasks_single_periodic_witness :
    (∀ t ∈ staleTaskStore, hasAllTags t coordinatorTags = true →
      t ∉ clearMatching staleTaskStore) ∧
    (getTasks (registerTasks staleTaskStore 7) coordinatorTags).length ≤ 1 :=
  registerTasks_single_periodic staleTaskStore 7 (by decide)

end TheOrg
